import Mathlib

/-! Verification model of the aws-go-lambda-demo repository's mlambda package:
the invocation orchestrator (Server.Start / Server.doWork), the control-plane
client (client.nextInvocation and the two submission calls), the incremental
envelope encoder (responseWriter) and the envelope decoder (HttpHandler).
Definitions are shallow embeddings of the Go source; machine integers are
modelled as Nat/Int, byte slices as List Nat, fallible calls as Option/Except. -/

set_option maxHeartbeats 1000000

namespace AwsLambdaDemo

/-! ## Bytes, base64 and JSON string primitives -/

/-- UTF-8 encoding of one character, as Go's conversion of a string to a byte
slice produces. -/
def utf8Bytes (c : Char) : List Nat :=
  let n := c.toNat
  if n < 128 then [n]
  else if n < 2048 then [192 + n / 64, 128 + n % 64]
  else if n < 65536 then [224 + n / 4096, 128 + n / 64 % 64, 128 + n % 64]
  else [240 + n / 262144, 128 + n / 4096 % 64, 128 + n / 64 % 64, 128 + n % 64]

/-- Bytes of a Go string (UTF-8). -/
def strBytes (s : String) : List Nat :=
  (s.data.map utf8Bytes).flatten

/-- Character at an index of the standard base64 alphabet. -/
def b64Char (n : Nat) : Char :=
  if n < 26 then Char.ofNat (65 + n)
  else if n < 52 then Char.ofNat (97 + (n - 26))
  else if n < 62 then Char.ofNat (48 + (n - 52))
  else if n = 62 then '+'
  else '/'

/-- Characters of the padded standard base64 encoding of a byte list: what
base64.NewEncoder(base64.StdEncoding, w) has written once it is closed. -/
def b64encodeChars : List Nat → List Char
  | [] => []
  | [b1] => [b64Char (b1 / 4), b64Char (b1 % 4 * 16), '=', '=']
  | [b1, b2] =>
    [b64Char (b1 / 4), b64Char (b1 % 4 * 16 + b2 / 16), b64Char (b2 % 16 * 4), '=']
  | b1 :: b2 :: b3 :: rest =>
    b64Char (b1 / 4) :: b64Char (b1 % 4 * 16 + b2 / 16) ::
      b64Char (b2 % 16 * 4 + b3 / 64) :: b64Char (b3 % 64) :: b64encodeChars rest

/-- Padded standard base64 encoding of a byte list, as a string. -/
def b64encode (bs : List Nat) : String := String.mk (b64encodeChars bs)

/-- Value of a character in the standard base64 alphabet; none for anything
else — in particular for the padding character, which is not in the alphabet
of base64.RawStdEncoding and makes its decoder fail. -/
def b64Val (c : Char) : Option Nat :=
  if 'A' ≤ c ∧ c ≤ 'Z' then some (c.toNat - 65)
  else if 'a' ≤ c ∧ c ≤ 'z' then some (c.toNat - 97 + 26)
  else if '0' ≤ c ∧ c ≤ '9' then some (c.toNat - 48 + 52)
  else if c = '+' then some 62
  else if c = '/' then some 63
  else none

/-- Unpadded standard base64 decoding over a filtered character list: full
quanta of four characters yield three bytes, a trailing quantum of two or
three characters yields one or two bytes, a trailing single character (or any
character outside the alphabet, padding included) is an error. -/
def rawStdDecodeChars : List Char → Option (List Nat)
  | [] => some []
  | [_] => none
  | [c1, c2] => do
    let v1 ← b64Val c1
    let v2 ← b64Val c2
    pure [v1 * 4 + v2 / 16]
  | [c1, c2, c3] => do
    let v1 ← b64Val c1
    let v2 ← b64Val c2
    let v3 ← b64Val c3
    pure [v1 * 4 + v2 / 16, v2 % 16 * 16 + v3 / 4]
  | c1 :: c2 :: c3 :: c4 :: rest => do
    let v1 ← b64Val c1
    let v2 ← b64Val c2
    let v3 ← b64Val c3
    let v4 ← b64Val c4
    let bs ← rawStdDecodeChars rest
    pure ((v1 * 4 + v2 / 16) :: (v2 % 16 * 16 + v3 / 4) :: (v3 % 4 * 64 + v4) :: bs)

/-- base64.RawStdEncoding.DecodeString: unpadded standard base64; carriage
returns and newlines are skipped, every other character must be in the
64-character alphabet (so a padding character is a decode error). -/
def rawStdDecode (s : String) : Option (List Nat) :=
  rawStdDecodeChars (s.data.filter fun c => c != Char.ofNat 13 && c != Char.ofNat 10)

/-- Lower-case hexadecimal digit. -/
def hexDigit (n : Nat) : Char :=
  if n < 10 then Char.ofNat (48 + n) else Char.ofNat (87 + n)

/-- Escaping of one character inside a JSON string literal, following
jsontext.AppendQuote: the two mandatory escapes, the short forms for the
popular control characters, hexadecimal escapes for the remaining control
characters, everything else verbatim. -/
def jsonEscapeChar (c : Char) : List Char :=
  if c = '"' then ['\\', '"']
  else if c = '\\' then ['\\', '\\']
  else if c = Char.ofNat 8 then ['\\', 'b']
  else if c = Char.ofNat 9 then ['\\', 't']
  else if c = Char.ofNat 10 then ['\\', 'n']
  else if c = Char.ofNat 12 then ['\\', 'f']
  else if c = Char.ofNat 13 then ['\\', 'r']
  else if c.toNat < 32 then
    ['\\', 'u', '0', '0', hexDigit (c.toNat / 16), hexDigit (c.toNat % 16)]
  else [c]

/-- JSON string literal for a string, as jsontext.AppendQuote writes it. -/
def jsonQuote (s : String) : String :=
  String.mk ('"' :: (s.data.map jsonEscapeChar).flatten ++ ['"'])

/-! ## net/http header model (canonical-keyed multimap) -/

/-- Valid header-field character per net/textproto (HTTP token characters). -/
def validHeaderFieldChar (c : Char) : Bool :=
  c.isAlphanum || c == '!' || c == '#' || c == '$' || c == '%' || c == '&' ||
    c == Char.ofNat 39 || c == '*' || c == '+' || c == '-' || c == '.' ||
    c == '^' || c == '_' || c == Char.ofNat 96 || c == '|' || c == '~'

/-- One step of MIME header-key canonicalization: upper-case a letter that
starts a word (after a hyphen), lower-case every other letter. -/
def canonChar (upper : Bool) (c : Char) : Char :=
  if upper then
    if 'a' ≤ c ∧ c ≤ 'z' then Char.ofNat (c.toNat - 32) else c
  else
    if 'A' ≤ c ∧ c ≤ 'Z' then Char.ofNat (c.toNat + 32) else c

/-- Canonicalize the characters of a header key; the flag says whether the
next character starts a word. -/
def canonChars : Bool → List Char → List Char
  | _, [] => []
  | upper, c :: rest => canonChar upper c :: canonChars (c == '-') rest

/-- textproto.CanonicalMIMEHeaderKey: canonical form of a MIME header key;
a key holding an invalid character is returned unchanged. -/
def canonicalMIMEHeaderKey (s : String) : String :=
  if s.data.all validHeaderFieldChar then String.mk (canonChars true s.data) else s

/-- net/http Header: a multimap keyed by canonical header keys. Go stores it
as a map; an association list keeps per-key value order (which Go's slices
preserve) while claims never depend on the order across keys. -/
abbrev Header := List (String × List String)

/-- Header.Set: replace the values of a key with a single value. -/
def headerSetC : List (String × List String) → String → String → List (String × List String)
  | [], ck, v => [(ck, [v])]
  | (k, vs) :: rest, ck, v =>
    if k = ck then (ck, [v]) :: rest else (k, vs) :: headerSetC rest ck v

/-- Header.Add: append a value to the values of a key. -/
def headerAddC : List (String × List String) → String → String → List (String × List String)
  | [], ck, v => [(ck, [v])]
  | (k, vs) :: rest, ck, v =>
    if k = ck then (k, vs ++ [v]) :: rest else (k, vs) :: headerAddC rest ck v

def Header.set (h : Header) (k v : String) : Header :=
  headerSetC h (canonicalMIMEHeaderKey k) v

def Header.add (h : Header) (k v : String) : Header :=
  headerAddC h (canonicalMIMEHeaderKey k) v

/-- Header.Values: all values under a key, or the empty list. -/
def Header.values (h : Header) (k : String) : List String :=
  (List.lookup (canonicalMIMEHeaderKey k) h).getD []

/-- Header.Del: remove a key. -/
def Header.del (h : Header) (k : String) : Header :=
  h.filter fun kv => kv.1 != canonicalMIMEHeaderKey k

/-- Header.Get: first value under a key, or the empty string. -/
def Header.get (h : Header) (k : String) : String :=
  (Header.values h k).head?.getD ""

/-! ## Incremental envelope encoder (responseWriter, src/unnamed/part_001) -/

/-- State of the incremental envelope encoder. `out` is everything written to
the underlying sink so far except body bytes; `bodyAcc` collects the body
bytes fed to the streaming base64 encoder (whose full output materializes at
finish, when the encoder is closed — accumulating the raw bytes and encoding
once yields the identical sink output). -/
structure responseWriter where
  out : String
  bodyAcc : List Nat
  sentHeaders : Bool
  header : Header

namespace responseWriter

/-- A fresh responseWriter as HttpHandler creates it. -/
def init : responseWriter :=
  { out := "", bodyAcc := [], sentHeaders := false, header := [] }

/-- The JSON prefix sendHeaders writes at commit: opening brace,
isBase64Encoded, the frozen status code, an optional cookies array from the
Set-Cookie values (which are removed from the header map), an optional
multiValueHeaders object from the remaining headers, then the body key and
its opening quote. -/
def commitChunk (statusCode : Int) (h : Header) : String :=
  let cs := Header.values h "set-cookie"
  let h2 := Header.del h "set-cookie"
  "\x7b" ++ jsonQuote "isBase64Encoded" ++ ":" ++ "true" ++ "," ++
    jsonQuote "statusCode" ++ ":" ++ toString statusCode ++ "," ++
    (if cs ≠ [] then
      jsonQuote "cookies" ++ ":[" ++ String.intercalate "," (cs.map jsonQuote) ++ "],"
    else "") ++
    (if h2 ≠ [] then
      jsonQuote "multiValueHeaders" ++ ":\x7b" ++
        String.intercalate "," (h2.map fun kv =>
          jsonQuote kv.1 ++ ":[" ++ String.intercalate "," (kv.2.map jsonQuote) ++ "]") ++
        "\x7d,"
    else "") ++
    jsonQuote "body" ++ ":\""

/-- responseWriter.sendHeaders: the one-time commit. A second call is a no-op;
the first call freezes the status code, emits the commit chunk and strips the
Set-Cookie values from the header map. -/
def sendHeaders (r : responseWriter) (statusCode : Int) : responseWriter :=
  if r.sentHeaders then r
  else
    { out := r.out ++ commitChunk statusCode r.header
      bodyAcc := r.bodyAcc
      sentHeaders := true
      header := Header.del r.header "set-cookie" }

/-- responseWriter.Write: commit with status 200 if not yet committed, then
stream the bytes through the base64 body encoder. -/
def write (r : responseWriter) (p : List Nat) : responseWriter :=
  let r2 := sendHeaders r 200
  { r2 with bodyAcc := r2.bodyAcc ++ p }

/-- responseWriter.WriteHeader: commit with the given status if not yet
committed, otherwise a no-op. -/
def writeHeader (r : responseWriter) (statusCode : Int) : responseWriter :=
  sendHeaders r statusCode

/-- A handler mutating the header map through Header().Add before commit. -/
def addHeader (r : responseWriter) (k v : String) : responseWriter :=
  { r with header := Header.add r.header k v }

/-- responseWriter.finish: commit with the default status 200 if commit never
happened, flush the base64 body encoder, close the body string and the
response object. Returns everything the sink received. -/
def finish (r : responseWriter) : String :=
  let r2 := sendHeaders r 200
  r2.out ++ b64encode r2.bodyAcc ++ "\"\x7d"

end responseWriter

/-! ## Envelope decoder (HttpHandler, src/unnamed/part_001) -/

/-- The http object of the inbound envelope's requestContext. -/
structure httpInfo where
  method : String := ""
  path : String := ""
  protocol : String := ""
  sourceIp : String := ""
  userAgent : String := ""

/-- requestContext of the inbound envelope (httpRequestContext in the source;
the raw-JSON authorizer fields are carried opaquely and omitted here). -/
structure httpRequestContext where
  accountId : String := ""
  apiId : String := ""
  domainName : String := ""
  domainPrefix : String := ""
  http : httpInfo := {}
  requestId : String := ""
  routeKey : String := ""
  stage : String := ""
  time : String := ""
  timeEpoch : Int := 0

/-- The inbound JSON envelope (httpRequest in the source). Go's maps are
modelled as association lists. -/
structure httpRequest where
  version : String := ""
  routeKey : String := ""
  rawPath : String := ""
  rawQueryString : String := ""
  cookies : List String := []
  headers : List (String × String) := []
  queryStringParameters : List (String × String) := []
  requestContext : httpRequestContext := {}
  body : String := ""
  pathParameters : List (String × String) := []
  isBase64Encoded : Bool := false
  stageVariables : List (String × String) := []

/-- Body preparation in HttpHandler: the body is base64-decoded (with
base64.RawStdEncoding) exactly when the envelope marks it base64-encoded,
and otherwise taken verbatim; none models the error return. -/
def decodeBody (isB64 : Bool) (body : String) : Option (List Nat) :=
  if isB64 then rawStdDecode body else some (strBytes body)

/-- The parts of net/url.URL that HttpHandler fills in. -/
structure GoURL where
  path : String := ""
  rawQuery : String := ""
  deriving DecidableEq

/-- net/url.ParseRequestURI restricted to origin-form request targets as
HttpHandler builds them: a rooted path, split at the first question mark
(percent-decoding of the path is not modelled; no claim depends on it). -/
def parseRequestURI (s : String) : Option GoURL :=
  if s.startsWith "/" then
    match s.splitOn "?" with
    | [] => some { path := s }
    | p :: rest => some { path := p, rawQuery := String.intercalate "?" rest }
  else none

/-- The generic http.Request fields HttpHandler fills in for the wrapped
handler. -/
structure GoHttpRequest where
  header : Header
  bodyBytes : List Nat
  url : GoURL
  requestURI : String
  host : String
  method : String
  proto : String
  deriving DecidableEq

/-- Decode path of HttpHandler: build the generic request handed to the
wrapped handler from the inbound envelope — body decode, path+query parse,
a Cookie header joined from the cookie sequence with a semicolon and space,
a User-Agent default from the request context, then the envelope's
pre-joined single-valued headers. none models the error return, which
surfaces as a pre-flush handler failure. -/
def decodeRequest (pr : httpRequest) : Option GoHttpRequest :=
  match decodeBody pr.isBase64Encoded pr.body with
  | none => none
  | some bodyBytes =>
    let urlStr :=
      pr.rawPath ++ (if pr.rawQueryString ≠ "" then "?" ++ pr.rawQueryString else "")
    let parsed : Option (GoURL × String) :=
      if urlStr ≠ "" then
        match parseRequestURI urlStr with
        | none => none
        | some u => some (u, urlStr)
      else some ({}, "")
    match parsed with
    | none => none
    | some (u, requestURI) =>
      let h0 : Header := []
      let cookieStr := String.intercalate "; " pr.cookies
      let h1 := if cookieStr ≠ "" then Header.set h0 "Cookie" cookieStr else h0
      let h2 := Header.set h1 "User-Agent" pr.requestContext.http.userAgent
      let h3 := pr.headers.foldl (fun h kv => Header.set h kv.1 kv.2) h2
      some { header := h3, bodyBytes := bodyBytes, url := u, requestURI := requestURI
             host := pr.requestContext.domainName
             method := pr.requestContext.http.method
             proto := pr.requestContext.http.protocol }

/-! ## Invocation client and orchestrator (src/internal/mlambda/client.go,
Server.doWork and Server.Start in src/unnamed/part_000) -/

/-- A Go error as the orchestrator can observe it through the pipe: its
message and whether errors.Is(err, io.EOF) holds for it. -/
structure GoErr where
  message : String
  isEOF : Bool
  deriving DecidableEq

/-- An invocation as client.nextInvocation returns it: request id, the result
of parsing the Lambda-Runtime-Deadline-Ms header, and the body stream. -/
structure Invocation where
  id : String
  deadlineParsed : Option Int
  body : List Nat
  deriving DecidableEq

/-- One complete execution of the handler goroutine against its pipe end: the
bytes it wrote before returning, and its returned error (none means a clean
pipeWriter.Close, some e a pipeWriter.CloseWithError(e)). -/
structure HandlerRun where
  written : List Nat
  result : Option GoErr
  deriving DecidableEq

/-- The control plane's reply to one next-invocation poll. -/
structure HttpResp where
  status : Nat
  headers : List (String × String)
  body : List Nat

/-- The environment of one iteration of the main loop: the transport outcome
of the poll, the handler goroutine's behavior, and whether the submission and
error-report calls would succeed (both outcomes are swallowed by doWork). -/
structure Step where
  transport : Except String HttpResp
  handler : HandlerRun
  submitOk : Bool
  errorReportOk : Bool

/-- strconv.ParseInt(s, 10, 64): an optional sign followed by at least one
decimal digit and nothing else; empty input, a bad character or 64-bit
overflow is an error. -/
def parseGoInt64 (s : String) : Option Int :=
  let signed : Bool × List Char :=
    match s.data with
    | '+' :: rest => (false, rest)
    | '-' :: rest => (true, rest)
    | cs => (false, cs)
  let ds := signed.2
  if ds.isEmpty then none
  else if ds.all Char.isDigit then
    let v : Nat := ds.foldl (fun a c => a * 10 + (c.toNat - 48)) 0
    if signed.1 then
      if v ≤ 2 ^ 63 then some (-(v : Int)) else none
    else
      if v < 2 ^ 63 then some (v : Int) else none
  else none

/-- UnixMilli of Go's zero time.Time (January 1, year 1 UTC): nextInvocation
stores a parsed deadline as time.UnixMilli(ms), and doWork's deadline branch
treats a zero time.Time as "no deadline". -/
def goZeroTimeUnixMilli : Int := -62135596800000

/-- Deadline carried by the per-invocation context doWork derives: present
iff the header parsed and time.UnixMilli of the value is not Go's zero time
(doWork checks req.deadline.IsZero() and falls back to a plain cancelable
context). -/
def deriveDeadline : Option Int → Option Int
  | none => none
  | some ms => if ms = goZeroTimeUnixMilli then none else some ms

/-- http.Header.Get over parsed (canonical-keyed) response headers. -/
def headersGet (hs : List (String × String)) (k : String) : String :=
  (hs.lookup (canonicalMIMEHeaderKey k)).getD ""

/-- Invocation metadata parsed from a 2xx poll response by
client.nextInvocation. -/
def mkInvocation (resp : HttpResp) : Invocation :=
  { id := headersGet resp.headers "Lambda-Runtime-Aws-Request-Id"
    deadlineParsed := parseGoInt64 (headersGet resp.headers "Lambda-Runtime-Deadline-Ms")
    body := resp.body }

/-- client.nextInvocation: a transport-level failure or a non-2xx reply is an
error; otherwise the invocation parsed from the reply headers and body. -/
def nextInvocation (r : Except String HttpResp) : Except String Invocation :=
  match r with
  | .error e => .error e
  | .ok resp =>
    if resp.status / 100 = 2 then .ok (mkInvocation resp)
    else .error "unexpected next http-response status"

/-- Externally visible actions of the orchestrator, in order: a poll (ok or
failed), creation of the per-invocation context with its derived deadline,
the submission call (client.invocationResponse) or the error-report call
(client.invocationError), cancellation of the context, and the deferred
drain-and-close of the invocation body. -/
inductive Event where
  | poll (ok : Bool)
  | ctxCreate (deadline : Option Int)
  | callResponse (id : String) (body : List Nat) (ok : Bool)
  | callError (id : String) (errorType : String) (errorMessage : String) (ok : Bool)
  | ctxCancel
  | drainBody
  | closeBody
  deriving DecidableEq

def Event.isCallError : Event → Bool
  | .callError .. => true
  | _ => false

def Event.isCallResponse : Event → Bool
  | .callResponse .. => true
  | _ => false

/-- Which client call doWork makes, decided by the one-byte non-consuming
peek on the buffered pipe reader: a first byte, or a clean end of stream
(a clean close, or a close error satisfying errors.Is(err, io.EOF)), leads to
the submission call; an error that is not a clean end of stream before any
byte leads to the error-report call with errorType "Handler.Error" and the
error's message. -/
def handlerCallEvent (id : String) (h : HandlerRun) (submitOk errOk : Bool) : Event :=
  match h.written, h.result with
  | [], some e =>
    if e.isEOF then .callResponse id [] submitOk
    else .callError id "Handler.Error" e.message errOk
  | _, _ => .callResponse id h.written submitOk

/-- Per-invocation processing of Server.doWork after a successful poll, as its
sequence of externally visible actions. The trailing ctxCancel, drainBody and
closeBody are the deferred cleanups, which run in this order on every path. -/
def doWorkInv (inv : Invocation) (h : HandlerRun) (submitOk errOk : Bool) : List Event :=
  [.ctxCreate (deriveDeadline inv.deadlineParsed),
   handlerCallEvent inv.id h submitOk errOk,
   .ctxCancel, .drainBody, .closeBody]

/-- Server.doWork: a poll failure is returned as doWork's error; on a
successful poll the invocation is processed and nil is returned, whatever
the handler and the client calls did. -/
def doWork (s : Step) : List Event × Option String :=
  match nextInvocation s.transport with
  | .error e => ([.poll false], some e)
  | .ok inv => (.poll true :: doWorkInv inv s.handler s.submitOk s.errorReportOk, none)

/-- The poll error of a step, if its poll would fail. -/
def pollErr (s : Step) : Option String :=
  match nextInvocation s.transport with
  | .error e => some e
  | .ok _ => none

/-- Server.Start's main loop, run against a finite script of environment
steps: doWork is repeated until it returns an error (which Start returns) or
the script runs out. -/
def startRun : List Step → List Event × Option String
  | [] => ([], none)
  | s :: rest =>
    match (doWork s).2 with
    | some e => ((doWork s).1, some e)
    | none => ((doWork s).1 ++ (startRun rest).1, (startRun rest).2)

/-! ## Theorems -/

/-- C1: for every invocation, a handler that writes at least one byte before
failing still gets the submission call and never the error-report call, and a
handler that fails before writing anything with a non-EOF error gets the
error-report call and never the submission call — the commitment point is
whether a byte was produced, as decided by the one-byte peek modelled in
handlerCallEvent. -/
theorem doWork_commit_point :
    ∀ (inv : Invocation) (b : Nat) (bs : List Nat) (e : GoErr) (m : String)
      (so eo : Bool),
      Event.callResponse inv.id (b :: bs) so ∈ doWorkInv inv ⟨b :: bs, some e⟩ so eo ∧
      (doWorkInv inv ⟨b :: bs, some e⟩ so eo).all (fun ev => !ev.isCallError) = true ∧
      Event.callError inv.id "Handler.Error" m eo ∈
        doWorkInv inv ⟨[], some ⟨m, false⟩⟩ so eo ∧
      (doWorkInv inv ⟨[], some ⟨m, false⟩⟩ so eo).all
        (fun ev => !ev.isCallResponse) = true := by
  intro inv b bs e m so eo
  refine ⟨?_, ?_, ?_, ?_⟩ <;>
    simp [doWorkInv, handlerCallEvent, Event.isCallError, Event.isCallResponse]

/-- C10: a handler that fails without writing anything, but whose error
satisfies errors.Is(err, io.EOF), is treated as a clean end of stream — the
submission call is made with an empty body and no error report happens. -/
theorem doWork_eof_error_treated_as_success :
    ∀ (inv : Invocation) (m : String) (so eo : Bool),
      Event.callResponse inv.id [] so ∈ doWorkInv inv ⟨[], some ⟨m, true⟩⟩ so eo ∧
      (doWorkInv inv ⟨[], some ⟨m, true⟩⟩ so eo).all
        (fun ev => !ev.isCallError) = true := by
  intro inv m so eo
  refine ⟨?_, ?_⟩ <;> simp [doWorkInv, handlerCallEvent, Event.isCallError]

/-- C2: the decode step rejects the spec's round-trip input. The envelope body
"aGVsbG8=" with isBase64Encoded true fails to decode (base64.RawStdEncoding
rejects the padding character), so HttpHandler errors instead of yielding the
bytes of "hello"; the unpadded input "aGVsbG8" does yield those bytes, and a
body not marked base64-encoded passes through verbatim. The code cannot
round-trip its own encoder output, which pads. -/
theorem httpHandler_base64_decode_eval :
    decodeBody true "aGVsbG8=" = none ∧
    decodeBody true "aGVsbG8" = some (strBytes "hello") ∧
    decodeRequest { body := "aGVsbG8=", isBase64Encoded := true } = none ∧
    (∀ s : String, decodeBody false s = some (strBytes s)) := by
  refine ⟨by decide, by decide, by decide, fun s => rfl⟩

/-- C3: a generic response that sets status 201, sets no headers and no
cookies, writes the bytes of "hello" and finishes produces exactly the
claimed envelope, with no cookies and no multiValueHeaders keys. -/
theorem responseWriter_encode_hello_201 :
    responseWriter.finish
        (responseWriter.write (responseWriter.writeHeader responseWriter.init 201)
          (strBytes "hello")) =
      "\x7b\"isBase64Encoded\":true,\"statusCode\":201,\"body\":\"aGVsbG8=\"\x7d" := by
  decide

/-- C4: the commit is one-shot — a WriteHeader after a first body write or
after a previous WriteHeader leaves the encoder state (hence the emitted
output) unchanged, and the concrete 201-write-404 sequence still emits
statusCode 201. -/
theorem responseWriter_commit_frozen :
    ∀ (rw : responseWriter) (c₁ c₂ : Int) (p : List Nat),
      responseWriter.writeHeader (responseWriter.write (responseWriter.writeHeader rw c₁) p) c₂ =
        responseWriter.write (responseWriter.writeHeader rw c₁) p ∧
      responseWriter.writeHeader (responseWriter.writeHeader rw c₁) c₂ =
        responseWriter.writeHeader rw c₁ ∧
      responseWriter.writeHeader (responseWriter.write rw p) c₂ =
        responseWriter.write rw p ∧
      responseWriter.finish
          (responseWriter.writeHeader
            (responseWriter.write (responseWriter.writeHeader responseWriter.init 201)
              (strBytes "hello")) 404) =
        "\x7b\"isBase64Encoded\":true,\"statusCode\":201,\"body\":\"aGVsbG8=\"\x7d" := by
  have hsent : ∀ (r : responseWriter) (c : Int),
      (responseWriter.sendHeaders r c).sentHeaders = true := by
    intro r c
    unfold responseWriter.sendHeaders
    split
    · next h => exact h
    · rfl
  have hnoop : ∀ (r : responseWriter) (c : Int),
      r.sentHeaders = true → responseWriter.sendHeaders r c = r := by
    intro r c h
    unfold responseWriter.sendHeaders
    simp [h]
  have hwrite : ∀ (r : responseWriter) (p : List Nat),
      (responseWriter.write r p).sentHeaders = true := by
    intro r p
    unfold responseWriter.write
    exact hsent r 200
  intro rw c₁ c₂ p
  refine ⟨?_, ?_, ?_, by decide⟩
  · exact hnoop _ c₂ (hwrite _ p)
  · exact hnoop _ c₂ (hsent rw c₁)
  · exact hnoop _ c₂ (hwrite rw p)

/-- C5: an inbound envelope with cookies ["a=1", "b=2"] decodes to a generic
request whose Cookie header is the single joined value "a=1; b=2"; an
outbound response carrying two Set-Cookie values x=1 and y=2 encodes them as
the cookies array in that order, with no set-cookie entry left for
multiValueHeaders (the header map is empty after the deletion, so the key is
absent altogether). -/
theorem cookie_handling_roundtrip :
    Option.map (fun r => Header.values r.header "Cookie")
        (decodeRequest { cookies := ["a=1", "b=2"] }) = some ["a=1; b=2"] ∧
    responseWriter.finish
        (responseWriter.addHeader
          (responseWriter.addHeader responseWriter.init "Set-Cookie" "x=1")
          "Set-Cookie" "y=2") =
      "\x7b\"isBase64Encoded\":true,\"statusCode\":200,\"cookies\":[\"x=1\",\"y=2\"],\"body\":\"\"\x7d" := by
  refine ⟨by decide, by decide⟩

/-- C9: finishing with no body write and no explicit status commits with the
default status 200 and an empty body, yielding exactly the claimed envelope;
and a first body write with no prior explicit status likewise commits with
status 200. -/
theorem responseWriter_default_status_200 :
    responseWriter.finish responseWriter.init =
      "\x7b\"isBase64Encoded\":true,\"statusCode\":200,\"body\":\"\"\x7d" ∧
    (∀ p : List Nat,
      responseWriter.finish (responseWriter.write responseWriter.init p) =
        "\x7b\"isBase64Encoded\":true,\"statusCode\":200,\"body\":\"" ++
          b64encode p ++ "\"\x7d") := by
  refine ⟨by decide, fun p => rfl⟩

/-- C6: doWork returns an error exactly when nextInvocation does (handler
failures and failed submissions are swallowed, so the loop polls again), the
loop's returned error is the first poll error of the script, a transport
failure polls as that error, and a polled reply fails exactly when its status
is not 2xx. -/
theorem start_fatal_only_on_poll_error :
    (∀ s : Step, (doWork s).2 = pollErr s) ∧
    (∀ script : List Step, (startRun script).2 = script.findSome? pollErr) ∧
    (∀ (e : String) (hr : HandlerRun) (so eo : Bool),
      pollErr ⟨Except.error e, hr, so, eo⟩ = some e) ∧
    (∀ (resp : HttpResp) (hr : HandlerRun) (so eo : Bool),
      (pollErr ⟨Except.ok resp, hr, so, eo⟩ = none ↔ resp.status / 100 = 2)) := by
  have hdo : ∀ s : Step, (doWork s).2 = pollErr s := by
    intro s
    rcases h : nextInvocation s.transport with e | inv <;> simp [doWork, pollErr, h]
  refine ⟨hdo, ?_, ?_, ?_⟩
  · intro script
    induction script with
    | nil => simp [startRun]
    | cons s rest ih =>
      rcases h : nextInvocation s.transport with e | inv <;>
        simp [startRun, doWork, pollErr, h, ih, List.findSome?_cons]
  · intro e hr so eo
    simp [pollErr, nextInvocation]
  · intro resp hr so eo
    by_cases hc : resp.status / 100 = 2 <;> simp [pollErr, nextInvocation, hc]

/-- C7 counterexample: the header value "-62135596800000" parses as an
integer, yet the derived context carries no deadline — time.UnixMilli of that
value is Go's zero time.Time, so doWork's IsZero check takes the plain
cancelable branch. -/
theorem deadline_header_zero_time_counterexample :
    parseGoInt64 "-62135596800000" = some (-62135596800000) ∧
    (doWork ⟨Except.ok ⟨200, [("Lambda-Runtime-Deadline-Ms", "-62135596800000")], []⟩,
        ⟨[], none⟩, true, true⟩).1 =
      [Event.poll true, Event.ctxCreate none, Event.callResponse "" [] true,
       Event.ctxCancel, Event.drainBody, Event.closeBody] := by
  refine ⟨by decide, by decide⟩

/-- C7 amended: the derived per-invocation context carries the parsed
Lambda-Runtime-Deadline-Ms value as its deadline whenever the header parses
as an integer other than -62135596800000 (the Unix-milliseconds of Go's zero
time, which the IsZero fallback treats as "no deadline"); an absent or
unparseable header yields a plain cancelable child with no deadline; and on
every processed invocation the context is created with that derived deadline
and canceled when processing finishes, whatever path was taken. -/
theorem deadline_scope_derivation :
    (∀ (inv : Invocation) (h : HandlerRun) (so eo : Bool),
      Event.ctxCreate (deriveDeadline inv.deadlineParsed) ∈ doWorkInv inv h so eo) ∧
    (∀ (inv : Invocation) (h : HandlerRun) (so eo : Bool),
      Event.ctxCancel ∈ doWorkInv inv h so eo) ∧
    deriveDeadline none = none ∧
    (∀ ms : Int, deriveDeadline (some ms) =
      if ms = goZeroTimeUnixMilli then none else some ms) ∧
    (∀ resp : HttpResp, (mkInvocation resp).deadlineParsed =
      parseGoInt64 (headersGet resp.headers "Lambda-Runtime-Deadline-Ms")) := by
  refine ⟨?_, ?_, rfl, fun ms => rfl, fun resp => rfl⟩ <;>
    intro inv h so eo <;> simp [doWorkInv]

/-- Splitting a trace at a poll event past a known non-poll head: the head
belongs to the prefix. -/
theorem trace_cons_split {x : Event} {ys l₁ l₂ : List Event} {b : Bool}
    (hx : ∀ b', x ≠ Event.poll b')
    (h : l₁ ++ Event.poll b :: l₂ = x :: ys) :
    ∃ l', l₁ = x :: l' ∧ l' ++ Event.poll b :: l₂ = ys := by
  cases l₁ with
  | nil =>
    rw [List.nil_append] at h
    injection h with h1 _
    exact absurd h1.symm (hx b)
  | cons a t =>
    injection h with h1 h2
    exact ⟨t, by rw [h1], h2⟩

/-- The call event of an invocation is never a poll event. -/
theorem handlerCallEvent_ne_poll (id : String) (h : HandlerRun) (so eo b : Bool) :
    handlerCallEvent id h so eo ≠ Event.poll b := by
  rcases h with ⟨w, r⟩
  cases w with
  | nil =>
    cases r with
    | none => simp [handlerCallEvent]
    | some e => by_cases he : e.isEOF <;> simp [handlerCallEvent, he]
  | cons a t => cases r <;> simp [handlerCallEvent]

/-- C8: on every path, the events immediately preceding any later poll in the
loop's trace are the previous invocation's deferred cleanups — context
cancellation, then the forced drain of the invocation body, then its close —
so the body stream is drained to exhaustion and closed before the next poll
is issued. -/
theorem body_drained_before_next_poll :
    ∀ (script : List Step) (l₁ l₂ : List Event) (b : Bool),
      (startRun script).1 = l₁ ++ Event.poll b :: l₂ →
      l₁ = [] ∨
        List.IsSuffix [Event.ctxCancel, Event.drainBody, Event.closeBody] l₁ := by
  intro script
  induction script with
  | nil =>
    intro l₁ l₂ b h
    simp only [startRun] at h
    exact absurd h.symm (by simp)
  | cons s rest ih =>
    intro l₁ l₂ b h
    rcases hn : nextInvocation s.transport with e | inv
    · simp only [startRun, doWork, hn] at h
      cases l₁ with
      | nil => exact Or.inl rfl
      | cons a t =>
        rw [List.cons_append] at h
        injection h with _ h2
        exact absurd h2.symm (by simp)
    · simp only [startRun, doWork, hn, doWorkInv, List.cons_append, List.nil_append] at h
      cases l₁ with
      | nil => exact Or.inl rfl
      | cons a t =>
        rw [List.cons_append] at h
        injection h with h1 h2
        obtain ⟨t1, ht1, h3⟩ := trace_cons_split (by intro b'; simp) h2.symm
        obtain ⟨t2, ht2, h4⟩ :=
          trace_cons_split
            (fun b' => handlerCallEvent_ne_poll inv.id s.handler s.submitOk s.errorReportOk b') h3
        obtain ⟨t3, ht3, h5⟩ := trace_cons_split (by intro b'; simp) h4
        obtain ⟨t4, ht4, h6⟩ := trace_cons_split (by intro b'; simp) h5
        obtain ⟨t5, ht5, h7⟩ := trace_cons_split (by intro b'; simp) h6
        subst ht1 ht2 ht3 ht4 ht5
        rcases ih t5 l₂ b h7.symm with h8 | h8
        · subst h8
          exact Or.inr ⟨[a, Event.ctxCreate (deriveDeadline inv.deadlineParsed),
            handlerCallEvent inv.id s.handler s.submitOk s.errorReportOk], rfl⟩
        · refine Or.inr (h8.trans ?_)
          exact ⟨[a, Event.ctxCreate (deriveDeadline inv.deadlineParsed),
            handlerCallEvent inv.id s.handler s.submitOk s.errorReportOk,
            Event.ctxCancel, Event.drainBody, Event.closeBody], rfl⟩

/-- Witness for C8: the theorem applied to a concrete two-invocation script,
splitting the trace at the second poll; the prefix ends with the first
invocation's ctxCancel, drainBody, closeBody. -/
theorem body_drained_before_next_poll_witness :
    [Event.poll true, Event.ctxCreate none, Event.callResponse "" [] true,
       Event.ctxCancel, Event.drainBody, Event.closeBody] = ([] : List Event) ∨
      List.IsSuffix [Event.ctxCancel, Event.drainBody, Event.closeBody]
        [Event.poll true, Event.ctxCreate none, Event.callResponse "" [] true,
         Event.ctxCancel, Event.drainBody, Event.closeBody] :=
  body_drained_before_next_poll
    [⟨Except.ok ⟨200, [], []⟩, ⟨[], none⟩, true, true⟩,
     ⟨Except.ok ⟨200, [], []⟩, ⟨[], none⟩, true, true⟩]
    [Event.poll true, Event.ctxCreate none, Event.callResponse "" [] true,
     Event.ctxCancel, Event.drainBody, Event.closeBody]
    [Event.ctxCreate none, Event.callResponse "" [] true,
     Event.ctxCancel, Event.drainBody, Event.closeBody]
    true (by decide)

end AwsLambdaDemo
